import Mathlib

/-!
Verification of the log-distillation engine in `src/cargo_cmd.rs`.

The four mode filters (`filter_cargo_build`, `filter_cargo_test`,
`filter_cargo_clippy`, `filter_cargo_install`) are pure functions from the
captured text of a cargo subprocess to a rendered summary string.  They are
embedded here as Lean functions over `String`, with the Rust string
primitives (`starts_with`, `trim`, `lines`, `split`, `rfind`, slicing, ...)
modelled over the underlying character list.  Rust byte-index slicing is
modelled by `rsSlice`, which returns `none` exactly when the Rust slice
expression aborts the process (start index past end index, or end past the
length); consequently `filter_cargo_clippy` returns an `Option String`,
`none` meaning the Rust program aborts instead of producing output.

The clippy filter groups locations in a `HashMap`, whose iteration order is
unspecified and varies between runs.  The embedding keeps the map as an
association list in first-insertion order (`by_rule`), and the renderer
`clippyRender` takes the iteration order as an explicit argument: the real
program's output is `clippyRender st iter` for some permutation `iter` of
`st.by_rule`.
-/

set_option maxRecDepth 20000

/-- Rust `char::is_whitespace`, restricted to the ASCII whitespace that can
occur in a line of captured cargo output (a line never contains a newline;
`\r` can survive `str::lines` only when not followed by `\n`). -/
def rsIsWs (c : Char) : Bool :=
  c = ' ' || c = '\t' || c = '\r' || c = '\n'

/-- Rust `str::starts_with`. -/
def rsStartsWith (s p : String) : Bool :=
  p.data.isPrefixOf s.data

/-- Rust `str::ends_with`. -/
def rsEndsWith (s p : String) : Bool :=
  p.data.isSuffixOf s.data

/-- Substring occurrence test on character lists. -/
def listIsSub (p : List Char) : List Char → Bool
  | [] => p.isEmpty
  | a :: rest => p.isPrefixOf (a :: rest) || listIsSub p rest

/-- Rust `str::contains` (substring test). -/
def rsContains (s p : String) : Bool :=
  listIsSub p.data s.data

/-- Rust `str::trim_start`. -/
def rsTrimStart (s : String) : String :=
  ⟨s.data.dropWhile rsIsWs⟩

/-- Rust `str::trim_end`. -/
def rsTrimEnd (s : String) : String :=
  ⟨(s.data.reverse.dropWhile rsIsWs).reverse⟩

/-- Rust `str::trim`. -/
def rsTrim (s : String) : String :=
  rsTrimEnd (rsTrimStart s)

/-- Rust `str::strip_prefix`. -/
def rsStripPre (s p : String) : Option String :=
  if p.data.isPrefixOf s.data then some ⟨s.data.drop p.data.length⟩ else none

/-- Split a character list at every occurrence of `c` (Rust `str::split`). -/
def rsSplitChar (c : Char) : List Char → List (List Char)
  | [] => [[]]
  | a :: rest =>
    if a = c then [] :: rsSplitChar c rest
    else
      match rsSplitChar c rest with
      | [] => [[a]]
      | g :: gs => (a :: g) :: gs

/-- Rust `str::split_once`: split at the first occurrence of `c`. -/
def rsSplitOnce (s : String) (c : Char) : Option (String × String) :=
  match rsSplitChar c s.data with
  | [] => none
  | [_] => none
  | a :: rest => some (⟨a⟩, ⟨(rest.map (fun g => g ++ [c])).flatten.dropLast⟩)

/-- Rust `str::split_whitespace` on cargo output lines, where tokens are
separated by single ASCII spaces: split on spaces, empties dropped. -/
def wsTokens (s : String) : List String :=
  ((rsSplitChar ' ' s.data).filter (fun g => g ≠ [])).map String.mk

/-- Drop one trailing carriage return (the `\r` of a `\r\n` line ending). -/
def stripCR (l : List Char) : List Char :=
  if l.getLast? = some '\r' then l.dropLast else l

/-- Rust `str::lines`: split on `\n`, strip a trailing `\r` from every
terminated line, and drop the final empty segment when the text ends with a
newline (or is empty). -/
def rsLines (s : String) : List String :=
  let segs := rsSplitChar '\n' s.data
  let n := segs.length
  let terminated := (segs.take (n - 1)).map stripCR
  match segs.getLast? with
  | none => []
  | some lastSeg =>
    if lastSeg = [] then terminated.map String.mk
    else (terminated ++ [lastSeg]).map String.mk

/-- Index of the last occurrence of `c` (Rust `str::rfind`, at character
granularity; relative order of positions agrees with Rust byte indices). -/
def rfindList (c : Char) : List Char → Option Nat
  | [] => none
  | a :: rest =>
    match rfindList c rest with
    | some i => some (i + 1)
    | none => if a = c then some 0 else none

def rsRfind (s : String) (c : Char) : Option Nat :=
  rfindList c s.data

/-- Rust slice `&s[start..stop]`.  Returns `none` exactly when the Rust
expression aborts the process: `start > stop` or `stop` past the end. -/
def rsSlice (s : String) (start stop : Nat) : Option String :=
  if start ≤ stop ∧ stop ≤ s.data.length then some ⟨(s.data.take stop).drop start⟩
  else none

/-- Rust `str::trim_start_matches p` for nonempty `p`: repeatedly strip the
prefix `p`.  Fuel-based; `fuel = length of the list` always suffices since
every strip removes at least one character. -/
def trimMatchesAux (p : List Char) : Nat → List Char → List Char
  | 0, s => s
  | fuel + 1, s =>
    if p ≠ [] ∧ p.isPrefixOf s then trimMatchesAux p fuel (s.drop p.length)
    else s

def rsTrimMatches (s p : String) : String :=
  ⟨trimMatchesAux p.data s.data.length s.data⟩

/-- Rust `Vec::join("\n")`. -/
def joinNL : List String → String
  | [] => ""
  | [a] => a
  | a :: b :: rest => a ++ "\n" ++ joinNL (b :: rest)

/-- Modelled from the spec: `crate::utils::truncate` is not under `src/`.
Spec section 4.3: "each failure text truncated to 200 characters with an
ellipsis marker when exceeded". -/
def truncate (s : String) (n : Nat) : String :=
  if s.data.length ≤ n then s else ⟨s.data.take n⟩ ++ "..."

/-- The fixed separator rule emitted by every failure header (39 `═`). -/
def sepLine : String := "═══════════════════════════════════════\n"

/-! ## Build/Check filter (`filter_cargo_build`, used by both `run_build`
and `run_check`) -/

structure BuildState where
  errors : List String
  warnings : Nat
  error_count : Nat
  compiled : Nat
  in_error : Bool
  current_error : List String
  deriving Repr, DecidableEq

def buildInit : BuildState := ⟨[], 0, 0, 0, false, []⟩

/-- The flush that `filter_cargo_build` performs before starting a new
diagnostic block (`if in_error && !current_error.is_empty()`). -/
def buildFlushPend (st : BuildState) : BuildState :=
  if st.in_error ∧ st.current_error ≠ [] then
    { st with errors := st.errors ++ [joinNL st.current_error], current_error := [] }
  else st

/-- One iteration of the line loop of `filter_cargo_build`. -/
def buildStep (st : BuildState) (line : String) : BuildState :=
  if rsStartsWith (rsTrimStart line) "Compiling" ∨ rsStartsWith (rsTrimStart line) "Checking" then
    { st with compiled := st.compiled + 1 }
  else if rsStartsWith (rsTrimStart line) "Downloading" ∨ rsStartsWith (rsTrimStart line) "Downloaded" then
    st
  else if rsStartsWith (rsTrimStart line) "Finished" then
    st
  else if rsStartsWith line "error[" ∨ rsStartsWith line "error:" then
    if rsContains line "aborting due to" ∨ rsContains line "could not compile" then st
    else
      let st1 := buildFlushPend st
      { st1 with error_count := st1.error_count + 1, in_error := true,
                 current_error := st1.current_error ++ [line] }
  else if rsStartsWith line "warning:" ∧ rsContains line "generated" ∧ rsContains line "warning" then
    st
  else if rsStartsWith line "warning:" ∨ rsStartsWith line "warning[" then
    let st1 := buildFlushPend st
    { st1 with warnings := st1.warnings + 1, in_error := true,
               current_error := st1.current_error ++ [line] }
  else if st.in_error then
    if (rsTrim line).data = [] ∧ 3 < st.current_error.length then
      { st with errors := st.errors ++ [joinNL st.current_error], current_error := [],
                in_error := false }
    else { st with current_error := st.current_error ++ [line] }
  else st

/-- The flush after the loop (`if !current_error.is_empty()`). -/
def buildFlushFinal (st : BuildState) : BuildState :=
  if st.current_error ≠ [] then { st with errors := st.errors ++ [joinNL st.current_error] }
  else st

def buildScanAll (output : String) : BuildState :=
  buildFlushFinal ((rsLines output).foldl buildStep buildInit)

def buildSuccessLine (compiled : Nat) : String :=
  "✓ cargo build (" ++ toString compiled ++ " crates compiled)"

def buildHeader (e w c : Nat) : String :=
  "cargo build: " ++ toString e ++ " errors, " ++ toString w ++ " warnings (" ++
    toString c ++ " crates)\n"

/-- The blocks that the render loop prints in full (`.take(15)`). -/
def buildRenderedBlocks (blocks : List String) : List String :=
  blocks.take 15

/-- The `K` stated by the `"... +K more issues"` trailer. -/
def moreIssuesCount (blocks : List String) : Nat :=
  blocks.length - 15

/-- The `"... +K more issues"` trailer, emitted only when over 15 blocks. -/
def moreIssuesPart (blocks : List String) : String :=
  if 15 < blocks.length then
    "\n... +" ++ toString (moreIssuesCount blocks) ++ " more issues\n"
  else ""

/-- The render loop over the first 15 blocks (blank line after each block
except when the index reaches the final block of the full list). -/
def buildBlocksPart (blocks : List String) : String :=
  ((buildRenderedBlocks blocks).enum).foldl
    (fun acc p => acc ++ p.2 ++ "\n" ++ (if p.1 < blocks.length - 1 then "\n" else "")) ""

def filter_cargo_build (output : String) : String :=
  let st := buildScanAll output
  if st.error_count = 0 ∧ st.warnings = 0 then buildSuccessLine st.compiled
  else
    rsTrim (buildHeader st.error_count st.warnings st.compiled ++ sepLine ++
      buildBlocksPart st.errors ++ moreIssuesPart st.errors)

/-- The `run_check` dispatcher (src/cargo_cmd.rs lines 80-82) routes
`cargo check` output to the same `filter_cargo_build`. -/
def filter_check (output : String) : String :=
  filter_cargo_build output

/-! ## Test filter (`filter_cargo_test`) -/

structure TestState where
  failures : List String
  summary_lines : List String
  in_failure_section : Bool
  current_failure : List String
  deriving Repr, DecidableEq

def testInit : TestState := ⟨[], [], false, []⟩

/-- One iteration of the line loop of `filter_cargo_test`.  Note that the
two `if` statements of the Rust loop body run in sequence: a
`"test result:"` line seen while inside the failure section first closes
the section and records the line, and then also satisfies the second
(`!in_failure_section && ...`) capture, recording it a second time. -/
def testStep (st : TestState) (line : String) : TestState :=
  if rsStartsWith (rsTrimStart line) "Compiling" ∨ rsStartsWith (rsTrimStart line) "Downloading" ∨
      rsStartsWith (rsTrimStart line) "Downloaded" ∨ rsStartsWith (rsTrimStart line) "Finished" then
    st
  else if rsStartsWith line "running " ∨ (rsStartsWith line "test " ∧ rsEndsWith line "... ok") then
    st
  else if line = "failures:" then
    { st with in_failure_section := true }
  else
    let st1 :=
      if st.in_failure_section then
        if rsStartsWith line "test result:" then
          { st with in_failure_section := false, summary_lines := st.summary_lines ++ [line] }
        else if rsStartsWith line "    " ∨ rsStartsWith line "---- " then
          { st with current_failure := st.current_failure ++ [line] }
        else if (rsTrim line).data = [] ∧ st.current_failure ≠ [] then
          { st with failures := st.failures ++ [joinNL st.current_failure], current_failure := [] }
        else if ¬(rsTrim line).data = [] then
          { st with current_failure := st.current_failure ++ [line] }
        else st
      else st
    if st1.in_failure_section = false ∧ rsStartsWith line "test result:" then
      { st1 with summary_lines := st1.summary_lines ++ [line] }
    else st1

def testFlushFinal (st : TestState) : TestState :=
  if st.current_failure ≠ [] then
    { st with failures := st.failures ++ [joinNL st.current_failure] }
  else st

def testScanAll (output : String) : TestState :=
  testFlushFinal ((rsLines output).foldl testStep testInit)

/-- The fallback when nothing was collected: the last 5 nonempty
non-"Compiling" lines of the raw input, in original order. -/
def testFallback (output : String) : String :=
  let meaningful := (rsLines output).filter
    (fun l => ¬(rsTrim l).data = [] ∧ ¬rsStartsWith (rsTrimStart l) "Compiling" = true)
  (meaningful.drop (meaningful.length - 5)).foldl (fun acc l => acc ++ l ++ "\n") ""

def filter_cargo_test (output : String) : String :=
  let st := testScanAll output
  if st.failures = [] ∧ st.summary_lines ≠ [] then
    rsTrim (st.summary_lines.foldl (fun acc l => acc ++ "✓ " ++ l ++ "\n") "")
  else
    let part1 :=
      if st.failures ≠ [] then
        "FAILURES (" ++ toString st.failures.length ++ "):\n" ++ sepLine ++
          ((st.failures.take 10).enum).foldl
            (fun acc p => acc ++ toString (p.1 + 1) ++ ". " ++ truncate p.2 200 ++ "\n") "" ++
          (if 10 < st.failures.length then
            "\n... +" ++ toString (st.failures.length - 10) ++ " more failures\n"
          else "") ++ "\n"
      else ""
    let part2 := part1 ++ st.summary_lines.foldl (fun acc l => acc ++ l ++ "\n") ""
    let part3 := if (rsTrim part2).data = [] then part2 ++ testFallback output else part2
    rsTrim part3

/-! ## Install filter (`filter_cargo_install`) -/

structure InstallState where
  errors : List String
  error_count : Nat
  compiled : Nat
  in_error : Bool
  current_error : List String
  installed_crate : String
  installed_version : String
  replaced_lines : List String
  already_installed : Bool
  ignored_line : String
  deriving Repr, DecidableEq

def installInit : InstallState := ⟨[], 0, 0, false, [], "", "", [], false, ""⟩

/-- One iteration of the line loop of `filter_cargo_install`. -/
def installStep (st : InstallState) (line : String) : InstallState :=
  let trimmed := rsTrimStart line
  if rsStartsWith trimmed "Compiling" then
    { st with compiled := st.compiled + 1 }
  else if rsStartsWith trimmed "Downloading" ∨ rsStartsWith trimmed "Downloaded" ∨
      rsStartsWith trimmed "Locking" ∨ rsStartsWith trimmed "Updating" ∨
      rsStartsWith trimmed "Adding" ∨ rsStartsWith trimmed "Finished" ∨
      rsStartsWith trimmed "Blocking waiting for file lock" then
    st
  else if rsStartsWith trimmed "Installing" then
    let rest := rsTrim ((rsStripPre trimmed "Installing").getD "")
    if ¬rest.data = [] ∧ ¬rsStartsWith rest "/" = true then
      match rsSplitOnce rest ' ' with
      | some (name, version) =>
        { st with installed_crate := name, installed_version := version }
      | none => { st with installed_crate := rest }
    else st
  else if rsStartsWith trimmed "Installed" then
    let rest := rsTrim ((rsStripPre trimmed "Installed").getD "")
    if ¬rest.data = [] ∧ st.installed_crate = "" then
      match wsTokens rest with
      | name :: version :: _ =>
        { st with installed_crate := name, installed_version := version }
      | _ => st
    else st
  else if rsStartsWith trimmed "Replacing" ∨ rsStartsWith trimmed "Replaced" then
    { st with replaced_lines := st.replaced_lines ++ [trimmed] }
  else if rsStartsWith trimmed "Ignored package" then
    { st with already_installed := true, ignored_line := trimmed }
  else if rsStartsWith line "warning:" then
    if ¬(rsContains line "generated" ∧ rsContains line "warning") then
      { st with replaced_lines := st.replaced_lines ++ [line] }
    else st
  else if rsStartsWith line "error[" ∨ rsStartsWith line "error:" then
    if rsContains line "aborting due to" ∨ rsContains line "could not compile" then st
    else
      let st1 :=
        if st.in_error ∧ st.current_error ≠ [] then
          { st with errors := st.errors ++ [joinNL st.current_error], current_error := [] }
        else st
      { st1 with error_count := st1.error_count + 1, in_error := true,
                 current_error := st1.current_error ++ [line] }
  else if st.in_error then
    if (rsTrim line).data = [] ∧ 3 < st.current_error.length then
      { st with errors := st.errors ++ [joinNL st.current_error], current_error := [],
                in_error := false }
    else { st with current_error := st.current_error ++ [line] }
  else st

def installFlushFinal (st : InstallState) : InstallState :=
  if st.current_error ≠ [] then
    { st with errors := st.errors ++ [joinNL st.current_error] }
  else st

def installScanAll (output : String) : InstallState :=
  installFlushFinal ((rsLines output).foldl installStep installInit)

def format_crate_info (name version fallback : String) : String :=
  if name = "" then fallback
  else if version = "" then name
  else name ++ " " ++ version

/-- Rust `ignored_line.split(backtick).nth(1).unwrap_or(&ignored_line)`: the text
between the first two backticks, or the text after a single backtick, or the
whole line when it has no backtick. -/
def ignoredInfo (l : String) : String :=
  (((rsSplitChar (Char.ofNat 96) l.data).get? 1).map String.mk).getD l

def installRender (st : InstallState) : String :=
  if st.already_installed then
    "✓ cargo install: " ++ ignoredInfo st.ignored_line ++ " already installed"
  else if 0 < st.error_count then
    let crate_info := format_crate_info st.installed_crate st.installed_version ""
    let deps_info :=
      if 0 < st.compiled then ", " ++ toString st.compiled ++ " deps compiled" else ""
    let headline :=
      if crate_info = "" then
        "cargo install: " ++ toString st.error_count ++ " error" ++
          (if 1 < st.error_count then "s" else "") ++ deps_info ++ "\n"
      else
        "cargo install: " ++ toString st.error_count ++ " error" ++
          (if 1 < st.error_count then "s" else "") ++ " (" ++ crate_info ++ deps_info ++ ")\n"
    rsTrim (headline ++ sepLine ++ buildBlocksPart st.errors ++ moreIssuesPart st.errors)
  else
    let crate_info := format_crate_info st.installed_crate st.installed_version "package"
    st.replaced_lines.foldl (fun acc l => acc ++ "\n  " ++ l)
      ("✓ cargo install (" ++ crate_info ++ ", " ++ toString st.compiled ++ " deps compiled)")

def filter_cargo_install (output : String) : String :=
  installRender (installScanAll output)

/-! ## Lint filter (`filter_cargo_clippy`) -/

structure ClippyState where
  by_rule : List (String × List String)
  error_count : Nat
  warning_count : Nat
  current_rule : String
  deriving Repr, DecidableEq

def clippyInit : ClippyState := ⟨[], 0, 0, ""⟩

/-- Rust `by_rule.entry(rule).or_default().push(location)`: append the location
to the rule entry, creating the entry on first use.  The list keeps
first-insertion order; the real `HashMap` only determines the key-value
association, not an order. -/
def assocPush (m : List (String × List String)) (k v : String) :
    List (String × List String) :=
  match m with
  | [] => [(k, [v])]
  | (k1, vs) :: rest =>
    if k1 = k then (k1, vs ++ [v]) :: rest else (k1, vs) :: assocPush rest k v

def assocLookup (m : List (String × List String)) (k : String) : Option (List String) :=
  match m with
  | [] => none
  | (k1, vs) :: rest => if k1 = k then some vs else assocLookup rest k

/-- One iteration of the line loop of `filter_cargo_clippy`.  Returns `none`
when the rule-extraction slice `line[bracket_start + 1..bracket_end]` aborts
(the last opening bracket sits after the last closing bracket). -/
def clippyStep (st : ClippyState) (line : String) : Option ClippyState :=
  if rsStartsWith (rsTrimStart line) "Compiling" ∨ rsStartsWith (rsTrimStart line) "Checking" ∨
      rsStartsWith (rsTrimStart line) "Downloading" ∨ rsStartsWith (rsTrimStart line) "Downloaded" ∨
      rsStartsWith (rsTrimStart line) "Finished" then
    some st
  else if (rsStartsWith line "warning:" ∨ rsStartsWith line "warning[") ∨
      (rsStartsWith line "error:" ∨ rsStartsWith line "error[") then
    if rsContains line "generated" ∧ rsContains line "warning" then some st
    else if rsContains line "aborting due to" ∨ rsContains line "could not compile" then some st
    else
      let is_error := rsStartsWith line "error"
      let st1 :=
        if is_error then { st with error_count := st.error_count + 1 }
        else { st with warning_count := st.warning_count + 1 }
      match rsRfind line '[' with
      | some bs =>
        match rsRfind line ']' with
        | some be => (rsSlice line (bs + 1) be).map (fun r => { st1 with current_rule := r })
        | none => some { st1 with current_rule := line }
      | none =>
        let pre := if is_error then "error: " else "warning: "
        some { st1 with current_rule := (rsStripPre line pre).getD line }
  else if rsStartsWith (rsTrimStart line) "--> " then
    let location := rsTrimMatches (rsTrimStart line) "--> "
    if ¬st.current_rule = "" then
      some { st with by_rule := assocPush st.by_rule st.current_rule location }
    else some st
  else some st

def clippyScanLines : ClippyState → List String → Option ClippyState
  | st, [] => some st
  | st, l :: ls =>
    match clippyStep st l with
    | none => none
    | some st1 => clippyScanLines st1 ls

def clippyScanAll (output : String) : Option ClippyState :=
  clippyScanLines clippyInit (rsLines output)

/-- Stable insertion into a list sorted by descending location count: the
inserted entry goes before every entry with a count less than or equal to
its own, exactly where the stable `sort_by(|a, b| b.1.len().cmp(&a.1.len()))`
of the Rust code leaves an entry relative to later iteration entries. -/
def insertByDesc (x : String × List String) :
    List (String × List String) → List (String × List String)
  | [] => [x]
  | y :: rest =>
    if x.2.length < y.2.length then y :: insertByDesc x rest else x :: y :: rest

/-- The stable descending-by-count sort applied to the entries in hash-map
iteration order. -/
def sortByCountDesc (l : List (String × List String)) : List (String × List String) :=
  l.foldr insertByDesc []

def clippyRulePart (p : String × List String) : String :=
  "  " ++ p.1 ++ " (" ++ toString p.2.length ++ "x)\n" ++
    (p.2.take 3).foldl (fun acc loc => acc ++ "    " ++ loc ++ "\n") "" ++
    (if 3 < p.2.length then "    ... +" ++ toString (p.2.length - 3) ++ " more\n" else "")

/-- The renderer of `filter_cargo_clippy`, parameterized by the order `iter`
in which the `HashMap` yields its entries.  The Rust program computes
`clippyRender st iter` for some permutation `iter` of `st.by_rule`, chosen
by the hasher seed of the run. -/
def clippyRender (st : ClippyState) (iter : List (String × List String)) : String :=
  if st.error_count = 0 ∧ st.warning_count = 0 then "✓ cargo clippy: No issues found"
  else
    rsTrim ("cargo clippy: " ++ toString st.error_count ++ " errors, " ++
      toString st.warning_count ++ " warnings\n" ++ sepLine ++
      ((sortByCountDesc iter).take 15).foldl (fun acc p => acc ++ clippyRulePart p) "" ++
      (if 15 < st.by_rule.length then
        "\n... +" ++ toString (st.by_rule.length - 15) ++ " more rules\n"
      else ""))

/-- The function `filter_cargo_clippy` with the insertion order as the iteration order;
`none` models the run aborting inside the scan. -/
def filter_cargo_clippy (output : String) : Option String :=
  (clippyScanAll output).map (fun st => clippyRender st st.by_rule)

/-! ## Helper lemmas about the string primitives -/

theorem rsDataAppend (s t : String) : (s ++ t).data = s.data ++ t.data := by
  cases s; cases t; rfl

theorem rsNeEmptyOfHead {s : String} {c : Char} {t : List Char}
    (h : s.data = c :: t) : s ≠ "" := by
  intro he
  rw [he] at h
  exact absurd h (by simp)

theorem isPrefixOfCons {a : Char} {as l : List Char}
    (h : (a :: as).isPrefixOf l = true) : ∃ t, l = a :: t ∧ as.isPrefixOf t = true := by
  cases l with
  | nil => simp [List.isPrefixOf] at h
  | cons b bs =>
    simp [List.isPrefixOf] at h
    exact ⟨bs, by rw [h.1], List.isPrefixOf_iff_prefix.mpr h.2⟩

theorem rsStartsWithHead {s p : String} {a : Char} {ta : List Char}
    (hp : p.data = a :: ta) (h : rsStartsWith s p = true) : ∃ t, s.data = a :: t := by
  unfold rsStartsWith at h
  rw [hp] at h
  obtain ⟨t, hl, _⟩ := isPrefixOfCons h
  exact ⟨t, hl⟩

theorem rsStartsWithConflict {s q : String} {a b : Char} {t tb : List Char}
    (hs : s.data = a :: t) (hq : q.data = b :: tb) (hab : b ≠ a) :
    rsStartsWith s q = false := by
  unfold rsStartsWith
  rw [hq, hs]
  simp [List.isPrefixOf, hab]

theorem rsStartsWithExt {s t p : String} (h : rsStartsWith s p = true) :
    rsStartsWith (s ++ t) p = true := by
  unfold rsStartsWith at *
  rw [rsDataAppend]
  rw [List.isPrefixOf_iff_prefix] at *
  exact h.trans ⟨t.data, rfl⟩

theorem joinNLDataCons (l : String) (rest : List String) :
    ∃ t, (joinNL (l :: rest)).data = l.data ++ t := by
  cases rest with
  | nil => exact ⟨[], by simp [joinNL]⟩
  | cons b bs =>
    refine ⟨'\n' :: (joinNL (b :: bs)).data, ?_⟩
    show ((l ++ "\n") ++ joinNL (b :: bs)).data = _
    rw [rsDataAppend, rsDataAppend]
    simp

theorem rsStartsWithJoin {p : String} (l : String) (rest : List String)
    (h : rsStartsWith l p = true) : rsStartsWith (joinNL (l :: rest)) p = true := by
  obtain ⟨t, ht⟩ := joinNLDataCons l rest
  unfold rsStartsWith at *
  rw [ht]
  rw [List.isPrefixOf_iff_prefix] at *
  exact h.trans ⟨t, rfl⟩

theorem joinNLHead {l : String} (rest : List String) {a : Char} {t : List Char}
    (h : l.data = a :: t) : ∃ t2, (joinNL (l :: rest)).data = a :: t2 := by
  obtain ⟨t3, ht⟩ := joinNLDataCons l rest
  exact ⟨t ++ t3, by rw [ht, h]; rfl⟩

def isErrStartLine (l : String) : Bool :=
  rsStartsWith l "error[" || rsStartsWith l "error:"

def isWarnStartLine (l : String) : Bool :=
  rsStartsWith l "warning:" || rsStartsWith l "warning["

theorem errStartHead {l : String} (h : isErrStartLine l = true) : ∃ t, l.data = 'e' :: t := by
  unfold isErrStartLine at h
  simp only [Bool.or_eq_true] at h
  rcases h with h | h
  · exact rsStartsWithHead (show ("error[" : String).data = 'e' :: "rror[".data from rfl) h
  · exact rsStartsWithHead (show ("error:" : String).data = 'e' :: "rror:".data from rfl) h

theorem warnStartHead {l : String} (h : isWarnStartLine l = true) : ∃ t, l.data = 'w' :: t := by
  unfold isWarnStartLine at h
  simp only [Bool.or_eq_true] at h
  rcases h with h | h
  · exact rsStartsWithHead (show ("warning:" : String).data = 'w' :: "arning:".data from rfl) h
  · exact rsStartsWithHead (show ("warning[" : String).data = 'w' :: "arning[".data from rfl) h

theorem errJoin {l : String} (rest : List String) (h : isErrStartLine l = true) :
    isErrStartLine (joinNL (l :: rest)) = true ∧ isWarnStartLine (joinNL (l :: rest)) = false := by
  constructor
  · unfold isErrStartLine at *
    simp only [Bool.or_eq_true] at *
    rcases h with h | h
    · exact Or.inl (rsStartsWithJoin l rest h)
    · exact Or.inr (rsStartsWithJoin l rest h)
  · obtain ⟨t, ht⟩ := errStartHead h
    obtain ⟨t2, ht2⟩ := joinNLHead rest ht
    unfold isWarnStartLine
    rw [rsStartsWithConflict ht2 (show ("warning:" : String).data = 'w' :: "arning:".data from rfl) (by decide),
        rsStartsWithConflict ht2 (show ("warning[" : String).data = 'w' :: "arning[".data from rfl) (by decide)]
    rfl

theorem warnJoin {l : String} (rest : List String) (h : isWarnStartLine l = true) :
    isWarnStartLine (joinNL (l :: rest)) = true ∧ isErrStartLine (joinNL (l :: rest)) = false := by
  constructor
  · unfold isWarnStartLine at *
    simp only [Bool.or_eq_true] at *
    rcases h with h | h
    · exact Or.inl (rsStartsWithJoin l rest h)
    · exact Or.inr (rsStartsWithJoin l rest h)
  · obtain ⟨t, ht⟩ := warnStartHead h
    obtain ⟨t2, ht2⟩ := joinNLHead rest ht
    unfold isErrStartLine
    rw [rsStartsWithConflict ht2 (show ("error[" : String).data = 'e' :: "rror[".data from rfl) (by decide),
        rsStartsWithConflict ht2 (show ("error:" : String).data = 'e' :: "rror:".data from rfl) (by decide)]
    rfl

def pendCount (p : String → Bool) : List String → Nat
  | [] => 0
  | l :: _ => if p l then 1 else 0

def BuildInv (st : BuildState) : Prop :=
  (st.in_error = false → st.current_error = []) ∧
  (st.in_error = true → st.current_error ≠ []) ∧
  (∀ l ls, st.current_error = l :: ls → isErrStartLine l = true ∨ isWarnStartLine l = true) ∧
  st.error_count = st.errors.countP isErrStartLine + pendCount isErrStartLine st.current_error ∧
  st.warnings = st.errors.countP isWarnStartLine + pendCount isWarnStartLine st.current_error

theorem buildInvInit : BuildInv buildInit := by
  refine ⟨fun _ => rfl, fun h => by simp [buildInit] at h, fun l ls h => by simp [buildInit] at h, ?_, ?_⟩ <;>
    simp [buildInit, pendCount]

theorem countPPush (bs : List String) (b : String) (p : String → Bool) :
    (bs ++ [b]).countP p = bs.countP p + (if p b then 1 else 0) := by
  rw [List.countP_append]
  simp [List.countP_cons]


theorem warnNotErr {l : String} (h : isWarnStartLine l = true) : isErrStartLine l = false := by
  obtain ⟨t, ht⟩ := warnStartHead h
  unfold isErrStartLine
  rw [rsStartsWithConflict ht (show ("error[" : String).data = 'e' :: "rror[".data from rfl) (by decide),
      rsStartsWithConflict ht (show ("error:" : String).data = 'e' :: "rror:".data from rfl) (by decide)]
  rfl

theorem errNotWarn {l : String} (h : isErrStartLine l = true) : isWarnStartLine l = false := by
  obtain ⟨t, ht⟩ := errStartHead h
  unfold isWarnStartLine
  rw [rsStartsWithConflict ht (show ("warning:" : String).data = 'w' :: "arning:".data from rfl) (by decide),
      rsStartsWithConflict ht (show ("warning[" : String).data = 'w' :: "arning[".data from rfl) (by decide)]
  rfl


theorem buildStepInv (st : BuildState) (line : String) (h : BuildInv st) :
    BuildInv (buildStep st line) := by
  obtain ⟨hie, hin, hhead, herr, hwarn⟩ := h
  unfold buildStep buildFlushPend
  split_ifs with h1 h2 h3 h4 h5 h6 h7 h8 h9 h10 h11
  · exact ⟨hie, hin, hhead, herr, hwarn⟩
  · exact ⟨hie, hin, hhead, herr, hwarn⟩
  · exact ⟨hie, hin, hhead, herr, hwarn⟩
  · exact ⟨hie, hin, hhead, herr, hwarn⟩
  · -- error start line, pending block flushed first
    have hline : isErrStartLine line = true := by
      unfold isErrStartLine; simp only [Bool.or_eq_true]; exact h4
    obtain ⟨l, ls, hcur⟩ : ∃ l ls, st.current_error = l :: ls := by
      cases hc : st.current_error with
      | nil => exact absurd hc h6.2
      | cons a as => exact ⟨a, as, rfl⟩
    rw [hcur] at herr hwarn ⊢
    rcases hhead l ls hcur with hl | hl
    · simp [pendCount, hl, errNotWarn hl] at herr hwarn
      refine ⟨by simp, by simp, ?_, ?_, ?_⟩
      · intro l2 ls2 he
        simp only [List.nil_append] at he
        cases he
        exact Or.inl hline
      · simp [countPPush, (errJoin ls hl).1, pendCount, hline]
        omega
      · simp [countPPush, (errJoin ls hl).2, pendCount, errNotWarn hline]
        omega
    · simp [pendCount, hl, warnNotErr hl] at herr hwarn
      refine ⟨by simp, by simp, ?_, ?_, ?_⟩
      · intro l2 ls2 he
        simp only [List.nil_append] at he
        cases he
        exact Or.inl hline
      · simp [countPPush, (warnJoin ls hl).2, pendCount, hline, warnNotErr hl]
        omega
      · simp [countPPush, (warnJoin ls hl).1, pendCount, errNotWarn hline]
        omega
  · -- error start line, nothing pending
    have hline : isErrStartLine line = true := by
      unfold isErrStartLine; simp only [Bool.or_eq_true]; exact h4
    have hcur : st.current_error = [] := by
      cases hb : st.in_error with
      | false => exact hie hb
      | true => exact absurd ⟨hb, hin hb⟩ h6
    rw [hcur] at herr hwarn
    simp [pendCount] at herr hwarn
    simp only [hcur]
    refine ⟨by simp, by simp, ?_, ?_, ?_⟩
    · intro l2 ls2 he
      simp only [List.nil_append] at he
      cases he
      exact Or.inl hline
    · simp [pendCount, hline]
      omega
    · simp [pendCount, errNotWarn hline]
      omega
  · exact ⟨hie, hin, hhead, herr, hwarn⟩
  · -- warning start line, pending block flushed first
    have hline : isWarnStartLine line = true := by
      unfold isWarnStartLine; simp only [Bool.or_eq_true]; exact h8
    obtain ⟨l, ls, hcur⟩ : ∃ l ls, st.current_error = l :: ls := by
      cases hc : st.current_error with
      | nil => exact absurd hc h9.2
      | cons a as => exact ⟨a, as, rfl⟩
    rw [hcur] at herr hwarn ⊢
    rcases hhead l ls hcur with hl | hl
    · simp [pendCount, hl, errNotWarn hl] at herr hwarn
      refine ⟨by simp, by simp, ?_, ?_, ?_⟩
      · intro l2 ls2 he
        simp only [List.nil_append] at he
        cases he
        exact Or.inr hline
      · simp [countPPush, (errJoin ls hl).1, pendCount, warnNotErr hline]
        omega
      · simp [countPPush, (errJoin ls hl).2, pendCount, hline, errNotWarn hl]
        omega
    · simp [pendCount, hl, warnNotErr hl] at herr hwarn
      refine ⟨by simp, by simp, ?_, ?_, ?_⟩
      · intro l2 ls2 he
        simp only [List.nil_append] at he
        cases he
        exact Or.inr hline
      · simp [countPPush, (warnJoin ls hl).2, pendCount, warnNotErr hline]
        omega
      · simp [countPPush, (warnJoin ls hl).1, pendCount, hline]
        omega
  · -- warning start line, nothing pending
    have hline : isWarnStartLine line = true := by
      unfold isWarnStartLine; simp only [Bool.or_eq_true]; exact h8
    have hcur : st.current_error = [] := by
      cases hb : st.in_error with
      | false => exact hie hb
      | true => exact absurd ⟨hb, hin hb⟩ h9
    rw [hcur] at herr hwarn
    simp [pendCount] at herr hwarn
    simp only [hcur]
    refine ⟨by simp, by simp, ?_, ?_, ?_⟩
    · intro l2 ls2 he
      simp only [List.nil_append] at he
      cases he
      exact Or.inr hline
    · simp [pendCount, warnNotErr hline]
      omega
    · simp [pendCount, hline]
      omega
  · -- blank line closing a long enough block
    obtain ⟨l, ls, hcur⟩ : ∃ l ls, st.current_error = l :: ls := by
      cases hc : st.current_error with
      | nil => exact absurd hc (hin h10)
      | cons a as => exact ⟨a, as, rfl⟩
    rw [hcur] at herr hwarn ⊢
    refine ⟨fun _ => rfl, by simp, by intro l2 ls2 he; simp at he, ?_, ?_⟩
    · rcases hhead l ls hcur with hl | hl
      · simp [pendCount, hl] at herr
        simp [countPPush, (errJoin ls hl).1, pendCount]
        omega
      · simp [pendCount, warnNotErr hl] at herr
        simp [countPPush, (warnJoin ls hl).2, pendCount]
        omega
    · rcases hhead l ls hcur with hl | hl
      · simp [pendCount, errNotWarn hl] at hwarn
        simp [countPPush, (errJoin ls hl).2, pendCount]
        omega
      · simp [pendCount, hl] at hwarn
        simp [countPPush, (warnJoin ls hl).1, pendCount]
        omega
  · -- continuation line appended to the open block
    obtain ⟨l, ls, hcur⟩ : ∃ l ls, st.current_error = l :: ls := by
      cases hc : st.current_error with
      | nil => exact absurd hc (hin h10)
      | cons a as => exact ⟨a, as, rfl⟩
    rw [hcur] at herr hwarn ⊢
    refine ⟨?_, by simp, ?_, ?_, ?_⟩
    · intro hfalse
      rw [h10] at hfalse
      cases hfalse
    · intro l2 ls2 he
      simp only [List.cons_append] at he
      injection he with he1 he2
      exact he1 ▸ hhead l ls hcur
    · simpa [pendCount] using herr
    · simpa [pendCount] using hwarn
  · exact ⟨hie, hin, hhead, herr, hwarn⟩

theorem buildFoldInv (lines : List String) :
    ∀ st : BuildState, BuildInv st → BuildInv (lines.foldl buildStep st) := by
  induction lines with
  | nil => exact fun st h => h
  | cons l ls ih => exact fun st h => ih (buildStep st l) (buildStepInv st l h)

theorem buildFlushFinalCounts (st : BuildState) (h : BuildInv st) :
    (buildFlushFinal st).error_count = (buildFlushFinal st).errors.countP isErrStartLine ∧
    (buildFlushFinal st).warnings = (buildFlushFinal st).errors.countP isWarnStartLine := by
  obtain ⟨hie, hin, hhead, herr, hwarn⟩ := h
  unfold buildFlushFinal
  split_ifs with hc
  · obtain ⟨l, ls, hcur⟩ : ∃ l ls, st.current_error = l :: ls := by
      cases hx : st.current_error with
      | nil => exact absurd hx hc
      | cons a as => exact ⟨a, as, rfl⟩
    rw [hcur] at herr hwarn ⊢
    rcases hhead l ls hcur with hl | hl
    · simp [pendCount, hl, errNotWarn hl] at herr hwarn
      constructor
      · simp [countPPush, (errJoin ls hl).1]
        omega
      · simp [countPPush, (errJoin ls hl).2]
        omega
    · simp [pendCount, hl, warnNotErr hl] at herr hwarn
      constructor
      · simp [countPPush, (warnJoin ls hl).2]
        omega
      · simp [countPPush, (warnJoin ls hl).1]
        omega
  · have hcur : st.current_error = [] := not_not.mp hc
    rw [hcur] at herr hwarn
    simp [pendCount] at herr hwarn
    exact ⟨herr, hwarn⟩

theorem buildScanAllCounts (output : String) :
    (buildScanAll output).error_count = (buildScanAll output).errors.countP isErrStartLine ∧
    (buildScanAll output).warnings = (buildScanAll output).errors.countP isWarnStartLine := by
  unfold buildScanAll
  exact buildFlushFinalCounts _ (buildFoldInv (rsLines output) buildInit buildInvInit)

/-- A per-unit progress line of build/check mode (`"Compiling"` / `"Checking"`). -/
def isProgressLine (l : String) : Bool :=
  rsStartsWith (rsTrimStart l) "Compiling" || rsStartsWith (rsTrimStart l) "Checking"

/-- A `"Finished"` line. -/
def isFinishedLine (l : String) : Bool :=
  rsStartsWith (rsTrimStart l) "Finished"

theorem finNotProg {l : String} (h : isFinishedLine l = true) : isProgressLine l = false := by
  unfold isFinishedLine at h
  obtain ⟨t, ht⟩ := rsStartsWithHead (show ("Finished" : String).data = 'F' :: "inished".data from rfl) h
  unfold isProgressLine
  rw [rsStartsWithConflict ht (show ("Compiling" : String).data = 'C' :: "ompiling".data from rfl) (by decide),
      rsStartsWithConflict ht (show ("Checking" : String).data = 'C' :: "hecking".data from rfl) (by decide)]
  rfl

theorem buildStepProgress (st : BuildState) (line : String) (h : isProgressLine line = true) :
    buildStep st line = { st with compiled := st.compiled + 1 } := by
  unfold buildStep
  rw [if_pos]
  unfold isProgressLine at h
  simpa using h

theorem buildStepFinished (st : BuildState) (line : String) (h : isFinishedLine line = true) :
    buildStep st line = st := by
  unfold isFinishedLine at h
  obtain ⟨t, ht⟩ := rsStartsWithHead (show ("Finished" : String).data = 'F' :: "inished".data from rfl) h
  unfold buildStep
  rw [if_neg, if_neg, if_pos h]
  · rw [rsStartsWithConflict ht (show ("Downloading" : String).data = 'D' :: "ownloading".data from rfl) (by decide),
        rsStartsWithConflict ht (show ("Downloaded" : String).data = 'D' :: "ownloaded".data from rfl) (by decide)]
    simp
  · rw [rsStartsWithConflict ht (show ("Compiling" : String).data = 'C' :: "ompiling".data from rfl) (by decide),
        rsStartsWithConflict ht (show ("Checking" : String).data = 'C' :: "hecking".data from rfl) (by decide)]
    simp

theorem buildFoldProgress (lines : List String) :
    ∀ st : BuildState, (∀ l ∈ lines, isProgressLine l = true ∨ isFinishedLine l = true) →
      lines.foldl buildStep st = { st with compiled := st.compiled + lines.countP isProgressLine } := by
  induction lines with
  | nil => intro st _; simp
  | cons l ls ih =>
    intro st hall
    rcases hall l (by simp) with hl | hl
    · rw [List.foldl_cons, buildStepProgress st l hl,
        ih _ (fun x hx => hall x (by simp [hx]))]
      simp [List.countP_cons, hl, Nat.add_comm, Nat.add_assoc, Nat.add_left_comm]
    · rw [List.foldl_cons, buildStepFinished st l hl,
        ih _ (fun x hx => hall x (by simp [hx]))]
      simp [List.countP_cons, finNotProg hl]


theorem assocPushMem : ∀ (m : List (String × List String)) (k v : String),
    (∀ p ∈ m, p.2 ≠ ([] : List String)) → ∀ p ∈ assocPush m k v, p.2 ≠ [] := by
  intro m
  induction m with
  | nil =>
    intro k v _ p hp
    simp only [assocPush, List.mem_singleton] at hp
    rw [hp]
    simp
  | cons q rest ih =>
    obtain ⟨ka, wsa⟩ := q
    intro k v h p hp
    simp only [assocPush] at hp
    split_ifs at hp with h1
    · rcases List.mem_cons.mp hp with hp1 | hp1
      · rw [hp1]
        simp
      · exact h p (List.mem_cons_of_mem _ hp1)
    · rcases List.mem_cons.mp hp with hp1 | hp1
      · rw [hp1]
        exact h (ka, wsa) (by simp)
      · exact ih k v (fun q2 hq2 => h q2 (List.mem_cons_of_mem _ hq2)) p hp1

theorem assocLookupMem : ∀ (m : List (String × List String)) (r : String) (ws : List String),
    assocLookup m r = some ws → ∃ k0, (k0, ws) ∈ m := by
  intro m
  induction m with
  | nil => intro r ws hl; cases hl
  | cons q rest ih =>
    obtain ⟨ka, wsa⟩ := q
    intro r ws hl
    simp only [assocLookup] at hl
    split_ifs at hl with h1
    · injection hl with hl2
      exact ⟨ka, by rw [← hl2]; simp⟩
    · obtain ⟨k0, hk0⟩ := ih r ws hl
      exact ⟨k0, List.mem_cons_of_mem _ hk0⟩

theorem clippyStepByRule (st st1 : ClippyState) (line : String)
    (h : clippyStep st line = some st1) :
    st1.by_rule = st.by_rule ∨ ∃ k v, st1.by_rule = assocPush st.by_rule k v := by
  unfold clippyStep at h
  split_ifs at h with h1 h2 h3 h4 h5 h6
  · cases h; exact Or.inl rfl
  · cases h; exact Or.inl rfl
  · cases h; exact Or.inl rfl
  · rcases hbs : rsRfind line '[' with _ | bs
    · simp only [hbs, Option.some.injEq] at h
      rw [← h]
      exact Or.inl (by split_ifs <;> rfl)
    · rcases hbe : rsRfind line ']' with _ | be
      · simp only [hbs, hbe, Option.some.injEq] at h
        rw [← h]
        exact Or.inl (by split_ifs <;> rfl)
      · rcases hsl : rsSlice line (bs + 1) be with _ | r
        · simp [hbs, hbe, hsl] at h
        · simp only [hbs, hbe, hsl, Option.map_some', Option.some.injEq] at h
          rw [← h]
          exact Or.inl (by split_ifs <;> rfl)
  · cases h; exact Or.inl rfl
  · cases h
    exact Or.inr ⟨st.current_rule, rsTrimMatches (rsTrimStart line) "--> ", rfl⟩
  · cases h; exact Or.inl rfl

theorem clippyScanMem : ∀ (lines : List String) (st st1 : ClippyState),
    (∀ p ∈ st.by_rule, p.2 ≠ ([] : List String)) →
    clippyScanLines st lines = some st1 →
    ∀ p ∈ st1.by_rule, p.2 ≠ [] := by
  intro lines
  induction lines with
  | nil =>
    intro st st1 h hs
    unfold clippyScanLines at hs
    injection hs with hs1
    rw [← hs1]
    exact h
  | cons l ls ih =>
    intro st st1 h hs
    unfold clippyScanLines at hs
    rcases hstep : clippyStep st l with _ | st2
    · rw [hstep] at hs
      cases hs
    · rw [hstep] at hs
      rcases clippyStepByRule st st2 l hstep with hb | ⟨k, v, hb⟩
      · exact ih st2 st1 (by rw [hb]; exact h) hs
      · exact ih st2 st1 (by rw [hb]; exact assocPushMem st.by_rule k v h) hs

/-! ## Claims -/

/-- Clippy output firing two distinct rules once each: a tie in the
location-occurrence counts. -/
def c1Input : String :=
  "warning: first issue [rule_a]\n --> a.rs:1:1\nwarning: second issue [rule_b]\n --> b.rs:2:2"

/-- The summary model collected from `c1Input`. -/
def c1State : ClippyState :=
  ⟨[("rule_a", ["a.rs:1:1"]), ("rule_b", ["b.rs:2:2"])], 0, 2, "rule_b"⟩

/-- C1: the claim asserts that equal-count rules are rendered in first-seen
order, deterministically across runs.  The code sorts only by descending
count and leaves ties in `HashMap` iteration order, which is unspecified
and varies between runs: the same collected state rendered under two
iteration orders (both permutations of the same map entries) yields two
different outputs, so the rendered order is not determined by the input. -/
theorem c1_clippy_tie_order_not_deterministic :
    clippyScanAll c1Input = some c1State ∧
    c1State.by_rule.Perm c1State.by_rule.reverse ∧
    clippyRender c1State c1State.by_rule ≠ clippyRender c1State c1State.by_rule.reverse := by
  refine ⟨by decide, (List.reverse_perm _).symm, by decide⟩

/-- C2: the claim asserts every mode's filter is total and never fails.
The clippy rule extraction slices `line[bracket_start + 1..bracket_end]`
with the positions of the last `[` and the last `]`; on the counted header
line `"warning: ]x["` the last `[` sits after the last `]`, the slice start
exceeds its end, and the Rust process aborts instead of producing output
(modelled by `rsSlice` returning `none`). -/
theorem c2_clippy_scan_aborts_on_bracket_line :
    filter_cargo_clippy "warning: ]x[" = none ∧
    rsRfind "warning: ]x[" '[' = some 11 ∧ rsRfind "warning: ]x[" ']' = some 9 ∧
    rsSlice "warning: ]x[" 12 9 = none := by
  refine ⟨by decide, by decide, by decide, by decide⟩

/-- C3 counterexample: check mode (which dispatches to
`filter_cargo_build`) renders the word "build", not "check", on a
zero-count input, contradicting the claim that the success line names the
actual subcommand. -/
theorem c3_check_mode_renders_build_word :
    (buildScanAll "").error_count = 0 ∧ (buildScanAll "").warnings = 0 ∧
    filter_check "" = "✓ cargo build (0 crates compiled)" ∧
    filter_check "" ≠ "✓ cargo check (0 crates compiled)" := by
  refine ⟨by decide, by decide, by decide, by decide⟩

/-- C3 (amended): for every check-mode input with zero error and warning
counts, the success line uses the shared build template
`"✓ cargo build (<compiled> crates compiled)"`; the template is not
parameterized by subcommand. -/
theorem c3_check_success_uses_build_template :
    ∀ output : String,
      (buildScanAll output).error_count = 0 → (buildScanAll output).warnings = 0 →
      filter_check output =
        "✓ cargo build (" ++ toString (buildScanAll output).compiled ++ " crates compiled)" := by
  intro output h1 h2
  simp only [filter_check, filter_cargo_build]
  rw [if_pos ⟨h1, h2⟩]
  rfl

/-- C3 witness: the amended theorem applied at the empty input. -/
theorem c3_check_success_uses_build_template_witness :
    filter_check "" =
      "✓ cargo build (" ++ toString (buildScanAll "").compiled ++ " crates compiled)" :=
  c3_check_success_uses_build_template "" (by decide) (by decide)

/-- A test-mode input in which the `"test result:"` line appears while the
failure region is still open. -/
def c4Input : String := "failures:\n    foo::bar\n\ntest result: FAILED. 1 failed"

/-- C4: the claim asserts that a `"test result:"` line contributes exactly
one summary line.  When the line appears inside the failure region, the
region-closing branch records it and then, because the flag was just
cleared, the outside-region capture immediately after records it again:
the summary list holds the line twice and the rendered output repeats it. -/
theorem c4_result_line_inside_failures_captured_twice :
    (testScanAll c4Input).summary_lines =
      ["test result: FAILED. 1 failed", "test result: FAILED. 1 failed"] ∧
    filter_cargo_test c4Input =
      "FAILURES (1):\n═══════════════════════════════════════\n1.     foo::bar\n\ntest result: FAILED. 1 failed\ntest result: FAILED. 1 failed" := by
  refine ⟨by decide, by decide⟩

/-- A full cargo test transcript with exactly one failing test: the
failures section carries a detail paragraph and a name list, separated by
blank lines. -/
def c5FullInput : String :=
  "running 5 tests\ntest foo::test_a ... ok\ntest foo::test_b ... FAILED\ntest foo::test_c ... ok\n\nfailures:\n\n---- foo::test_b stdout ----\nthread panicked at assertion failed\n\nfailures:\n    foo::test_b\n\ntest result: FAILED. 4 passed; 1 failed; 0 ignored; 0 measured; 0 filtered out\n"

/-- C5 counterexample: an input with a `failures:` section containing one
failing test and a trailing `"test result: FAILED. ..."` line whose output
does not contain `"FAILURES (1):"`: the blank-line-separated detail
paragraph and name list are collected as two blocks, so the header reads
`"FAILURES (2):"`. -/
theorem c5_one_failing_test_renders_two_blocks :
    (rsLines c5FullInput).countP (fun l => rsStartsWith l "test " && rsEndsWith l "... FAILED") = 1 ∧
    "failures:" ∈ rsLines c5FullInput ∧
    "test result: FAILED. 4 passed; 1 failed; 0 ignored; 0 measured; 0 filtered out" ∈
      rsLines c5FullInput ∧
    rsContains (filter_cargo_test c5FullInput) "FAILURES (1):" = false ∧
    rsContains (filter_cargo_test c5FullInput) "FAILURES (2):" = true := by
  refine ⟨by decide, by decide, by decide, by decide, by decide⟩

/-- A minimal failures section collecting a single block. -/
def c5MinInput : String :=
  "failures:\n    foo::test_b\n\ntest result: FAILED. 4 passed; 1 failed; 0 ignored; 0 measured; 0 filtered out"

/-- C5 (amended): the `"FAILURES (<k>):"` header counts collected
blank-line-separated failure blocks, not failing tests; an input whose
failures section collects exactly one block renders `"FAILURES (1):"`,
contains the result line verbatim, and contains no passing `"... ok"`
test line. -/
theorem c5_single_block_failures_render :
    (testScanAll c5MinInput).failures.length = 1 ∧
    rsContains (filter_cargo_test c5MinInput) "FAILURES (1):" = true ∧
    rsContains (filter_cargo_test c5MinInput)
      "test result: FAILED. 4 passed; 1 failed; 0 ignored; 0 measured; 0 filtered out" = true ∧
    (rsLines (filter_cargo_test c5MinInput)).all
      (fun l => !(rsStartsWith l "test " && rsEndsWith l "... ok")) = true := by
  refine ⟨by decide, by decide, by decide, by decide⟩

/-- A clippy header line with no following location line. -/
def c6Input : String := "warning: a lonely diagnostic with no location line"

/-- The summary model collected from `c6Input`. -/
def c6State : ClippyState := ⟨[], 0, 1, "a lonely diagnostic with no location line"⟩

/-- C6 counterexample: in lint mode the header warning count is 1 while
the collected summary model is empty (no rule entry, no location), so the
reported counts do not equal the number of collected diagnostic entries of
that severity: the count was merely counted, not collected. -/
theorem c6_lint_count_without_collected_entry :
    clippyScanAll c6Input = some c6State ∧
    c6State.warning_count = 1 ∧ c6State.by_rule = [] ∧
    clippyRender c6State c6State.by_rule =
      "cargo clippy: 0 errors, 1 warnings\n═══════════════════════════════════════" := by
  refine ⟨by decide, by decide, by decide, by decide⟩

/-- C6 (amended): for every build/check-mode input, the error and warning
counts reported in the header equal the number of collected diagnostic
blocks whose head line is an error (resp. warning) start line; in lint
mode the counts are incremented per header line independently of the
collected rule-location groups and can differ from them. -/
theorem c6_build_counts_equal_collected_blocks :
    ∀ output : String,
      (buildScanAll output).error_count = (buildScanAll output).errors.countP isErrStartLine ∧
      (buildScanAll output).warnings = (buildScanAll output).errors.countP isWarnStartLine :=
  buildScanAllCounts

/-- C7: the number of fully rendered blocks (capped at 15) plus the K
stated by the `"... +K more issues"` trailer equals the total number of
collected blocks; the trailer is empty exactly when at most 15 blocks
exist; and on any input with nonzero counts the output is the header
built from the scan counts (unaffected by the block truncation), the
separator, the rendered blocks and the trailer. -/
theorem c7_truncation_is_exact :
    ∀ output : String,
      (buildRenderedBlocks (buildScanAll output).errors).length +
        (if 15 < (buildScanAll output).errors.length then
          moreIssuesCount (buildScanAll output).errors
        else 0) = (buildScanAll output).errors.length ∧
      (moreIssuesPart (buildScanAll output).errors = "" ↔
        (buildScanAll output).errors.length ≤ 15) ∧
      (¬((buildScanAll output).error_count = 0 ∧ (buildScanAll output).warnings = 0) →
        filter_cargo_build output =
          rsTrim (buildHeader (buildScanAll output).error_count (buildScanAll output).warnings
            (buildScanAll output).compiled ++ sepLine ++
            buildBlocksPart (buildScanAll output).errors ++
            moreIssuesPart (buildScanAll output).errors)) := by
  intro output
  refine ⟨?_, ?_, ?_⟩
  · simp only [buildRenderedBlocks, List.length_take, moreIssuesCount]
    split_ifs with h <;> omega
  · unfold moreIssuesPart
    split_ifs with h
    · constructor
      · intro he
        have hd := congrArg String.data he
        rw [rsDataAppend, rsDataAppend] at hd
        have hhead : ("\n... +" : String).data = '\n' :: "... +".data := rfl
        rw [hhead] at hd
        simp at hd
      · intro hle
        exact absurd h (by omega)
    · simp [Nat.le_of_not_lt h]
  · intro h
    simp only [filter_cargo_build]
    rw [if_neg h]

/-- A build input collecting a single error block. -/
def c7Input : String := "error: boom"

/-- C7 witness: the theorem applied at an input with one error. -/
theorem c7_truncation_is_exact_witness :
    (buildRenderedBlocks (buildScanAll c7Input).errors).length +
      (if 15 < (buildScanAll c7Input).errors.length then
        moreIssuesCount (buildScanAll c7Input).errors
      else 0) = (buildScanAll c7Input).errors.length ∧
    (moreIssuesPart (buildScanAll c7Input).errors = "" ↔
      (buildScanAll c7Input).errors.length ≤ 15) ∧
    filter_cargo_build c7Input =
      rsTrim (buildHeader (buildScanAll c7Input).error_count (buildScanAll c7Input).warnings
        (buildScanAll c7Input).compiled ++ sepLine ++
        buildBlocksPart (buildScanAll c7Input).errors ++
        moreIssuesPart (buildScanAll c7Input).errors) :=
  ⟨(c7_truncation_is_exact c7Input).1, (c7_truncation_is_exact c7Input).2.1,
    (c7_truncation_is_exact c7Input).2.2 (by decide)⟩

/-- C8: for every build/check input containing only progress-verb lines
("Compiling"/"Checking") and "Finished" lines, the output is exactly the
success line with the count of progress-verb lines. -/
theorem c8_progress_only_renders_success :
    ∀ output : String,
      (∀ l ∈ rsLines output, isProgressLine l = true ∨ isFinishedLine l = true) →
      filter_cargo_build output =
        "✓ cargo build (" ++ toString ((rsLines output).countP isProgressLine) ++
          " crates compiled)" := by
  intro output hall
  unfold filter_cargo_build buildScanAll
  rw [buildFoldProgress (rsLines output) buildInit hall]
  simp [buildFlushFinal, buildInit, buildSuccessLine]

def c8Input : String := "   Compiling libc v0.2.153\n    Checking rtk v0.5.0\n    Finished dev target(s) in 1.0s\n"

/-- C8 witness: the theorem applied at a three-line progress transcript. -/
theorem c8_progress_only_renders_success_witness :
    filter_cargo_build c8Input =
      "✓ cargo build (" ++ toString ((rsLines c8Input).countP isProgressLine) ++
        " crates compiled)" :=
  c8_progress_only_renders_success c8Input (by decide)

/-- The already-installed transcript of spec section 8. -/
def c9Input : String :=
  "  Ignored package `cargo-deb v2.1.0 (/Users/user/cargo-deb)`, is already installed\n"

/-- C9: whenever an "Ignored package" line was seen, install mode renders
the already-installed template regardless of any other collected state,
with the name extracted by `split` on backticks (second fragment, whole
line when the line has no backtick); on the section-8 cargo-deb example
the output contains "already installed" and "cargo-deb v2.1.0". -/
theorem c9_already_installed_short_circuit :
    (∀ output : String, (installScanAll output).already_installed = true →
      filter_cargo_install output =
        "✓ cargo install: " ++ ignoredInfo (installScanAll output).ignored_line ++
          " already installed") ∧
    rsContains (filter_cargo_install c9Input) "already installed" = true ∧
    rsContains (filter_cargo_install c9Input) "cargo-deb v2.1.0" = true ∧
    ignoredInfo "Ignored package cargo-deb, is already installed" =
      "Ignored package cargo-deb, is already installed" := by
  refine ⟨?_, by decide, by decide, by decide⟩
  intro output h
  show installRender (installScanAll output) = _
  unfold installRender
  rw [if_pos h]

/-- C9 witness: the universal branch applied at the cargo-deb transcript. -/
theorem c9_already_installed_short_circuit_witness :
    filter_cargo_install c9Input =
      "✓ cargo install: " ++ ignoredInfo (installScanAll c9Input).ignored_line ++
        " already installed" :=
  c9_already_installed_short_circuit.1 c9Input (by decide)

/-- A clippy input whose first header line has no location line before the
next header. -/
def c10Input : String := "warning: lonely [rule_a]\nwarning: located [rule_b]\n --> b.rs:2:2"

/-- The summary model collected from `c10Input`. -/
def c10State : ClippyState := ⟨[("rule_b", ["b.rs:2:2"])], 0, 2, "rule_b"⟩

/-- C10: every rule entry of the collected map holds at least one location
(an entry is only ever created by a location line), so a header line with
no following location line increments the counts without producing any
rule entry or location: on `c10Input` the header reports 2 warnings while
the body lists a single rule with a single location and `rule_a` is
absent. -/
theorem c10_no_location_counted_but_not_collected :
    (∀ (output : String) (st : ClippyState), clippyScanAll output = some st →
      ∀ p ∈ st.by_rule, p.2 ≠ ([] : List String)) ∧
    clippyScanAll c10Input = some c10State ∧
    c10State.warning_count = 2 ∧ c10State.error_count = 0 ∧
    assocLookup c10State.by_rule "rule_a" = none ∧
    (c10State.by_rule.map (fun p => p.2.length)).sum = 1 ∧
    clippyRender c10State c10State.by_rule =
      "cargo clippy: 0 errors, 2 warnings\n═══════════════════════════════════════\n  rule_b (1x)\n    b.rs:2:2" := by
  refine ⟨?_, by decide, by decide, by decide, by decide, by decide, by decide⟩
  intro output st hs
  exact clippyScanMem (rsLines output) clippyInit st (by simp [clippyInit]) hs

/-- C10 witness: the universal branch applied at `c10Input` and the
collected `rule_b` entry. -/
theorem c10_no_location_counted_but_not_collected_witness :
    (("rule_b", ["b.rs:2:2"]) : String × List String).2 ≠ [] :=
  c10_no_location_counted_but_not_collected.1 c10Input c10State (by decide)
    ("rule_b", ["b.rs:2:2"]) (by decide)
